import Mathlib

/-!
Verification of the Daraja gateway client (`daraja_client.py`).

The Python source is shallowly embedded below.  Conventions used throughout:

* Machine time (`time.time()`) is modelled as an integer number of seconds
  (`Int`); every claim-relevant comparison uses integral offsets (10, 30,
  3600), so nothing is lost.
* Python `Optional[str]` becomes `Option String`; Python truthiness of an
  optional string (`if self._token:`) is `pyTruthyStr`.
* Network effects are passed in explicitly: an OAuth exchange is an
  `Except String OauthData` argument (the `.error` case models
  `requests` raising / `raise_for_status`), and the documentation index is
  built from already-fetched `(url, Option body)` pairs.
* Python exceptions become the `DarajaError` sum type, named after the
  spec's taxonomy (`RuntimeError` for missing credentials is the spec's
  `ConfigurationError`; `ValueError` on an empty query is the spec's
  `ValidationError`).
* JSON payloads are association lists `List (String × JVal)` in the exact
  key order the source writes them.
* Scores (Python floats) are modelled as exact rationals `ℚ`.
-/

/-- Python truthiness of an `Optional[str]`: `None` and `""` are falsy. -/
def pyTruthyStr : Option String → Bool
  | none => false
  | some s => s ≠ ""

/-- Error taxonomy of the spec.  `configurationError` embeds the
`RuntimeError('DARAJA_CONSUMER_KEY and ...')` raise, `validationError` the
`ValueError('query must be a non-empty string')` raise, `upstreamError`
any `requests` failure (`raise_for_status`, transport errors). -/
inductive DarajaError where
  | configurationError (msg : String)
  | validationError (msg : String)
  | upstreamError (msg : String)
deriving DecidableEq, Repr

/-- The credential store fixed at `DarajaClient.__init__`:
consumer key/secret (either passed in or from the environment, possibly
absent), shortcode and passkey (with sandbox defaults). -/
structure DarajaConfig where
  consumerKey : Option String
  consumerSecret : Option String
  shortcode : String
  passkey : String
deriving DecidableEq, Repr

/-! ### Base64 and the request signer (`_generate_password`) -/

/-- UTF-8 encoding of a single code point (`str.encode('utf-8')`),
one byte per `Nat`. -/
def utf8Bytes (c : Char) : List Nat :=
  let n := c.toNat
  if n < 128 then [n]
  else if n < 2048 then [192 + n / 64, 128 + n % 64]
  else if n < 65536 then [224 + n / 4096, 128 + (n / 64) % 64, 128 + n % 64]
  else [240 + n / 262144, 128 + (n / 4096) % 64, 128 + (n / 64) % 64, 128 + n % 64]

/-- UTF-8 bytes of a string. -/
def strBytes (s : String) : List Nat :=
  (s.data.map utf8Bytes).flatten

/-- The standard base64 alphabet used by `base64.b64encode`. -/
def base64Chars : List Char :=
  "ABCDEFGHIJKLMNOPQRSTUVWXYZabcdefghijklmnopqrstuvwxyz0123456789+/".data

def b64c (n : Nat) : Char := base64Chars.getD n '='

/-- Base64 encoding of a byte list, with `=` padding
(the semantics of `base64.b64encode`). -/
def b64GroupsEncode : List Nat → List Char
  | [] => []
  | [b1] => [b64c (b1 / 4), b64c (b1 % 4 * 16), '=', '=']
  | [b1, b2] => [b64c (b1 / 4), b64c (b1 % 4 * 16 + b2 / 16), b64c (b2 % 16 * 4), '=']
  | b1 :: b2 :: b3 :: rest =>
      b64c (b1 / 4) :: b64c (b1 % 4 * 16 + b2 / 16) ::
      b64c (b2 % 16 * 4 + b3 / 64) :: b64c (b3 % 64) :: b64GroupsEncode rest

def b64encode (bs : List Nat) : String := String.mk (b64GroupsEncode bs)

/-- `DarajaClient._generate_password`: base64 of the UTF-8 bytes of the
f-string `f"{self.shortcode}{self.passkey}{timestamp}"`. -/
def generate_password (c : DarajaConfig) (timestamp : String) : String :=
  b64encode (strBytes (c.shortcode ++ c.passkey ++ timestamp))

/-! ### Token manager (`_get_oauth`) -/

/-- The mutable token cache: `self._token` (initially `None`) and
`self._token_expires_at` (initially `0`). -/
structure TokenState where
  token : Option String
  tokenExpiresAt : Int
deriving DecidableEq, Repr

def TokenState.init : TokenState := ⟨none, 0⟩

/-- A successful OAuth response body: `data.get('access_token')` (absent key
gives `none`) and `data.get('expires_in', 3600)` after `int` conversion. -/
structure OauthData where
  accessToken : Option String
  expiresIn : Option Int
deriving DecidableEq, Repr

/-- `DarajaClient._get_oauth`.  Arguments beyond the source's `self`:
`now` is `time.time()`, `fetch` the outcome of the
`requests.get(... oauth/v1/generate ...)` exchange.  Returns the token value
returned to the caller, the new cache state, and whether a network fetch
occurred. -/
def get_oauth (c : DarajaConfig) (now : Int) (st : TokenState)
    (fetch : Except String OauthData) :
    Except DarajaError (Option String × TokenState × Bool) :=
  if pyTruthyStr st.token = true ∧ now < st.tokenExpiresAt - 30 then
    .ok (st.token, st, false)
  else if ¬(pyTruthyStr c.consumerKey = true ∧ pyTruthyStr c.consumerSecret = true) then
    .error (.configurationError
      "DARAJA_CONSUMER_KEY and DARAJA_CONSUMER_SECRET must be set in .env or passed in")
  else
    match fetch with
    | .error e => .error (.upstreamError e)
    | .ok d =>
        let token := d.accessToken
        let expiresIn := d.expiresIn.getD 3600
        .ok (token, ⟨token, now + expiresIn⟩, true)

/-- Run a sequence of `_get_oauth` calls (each with its own clock reading and
network outcome), collecting the per-call results and the final cache state. -/
def runGetOauth (c : DarajaConfig) :
    List (Int × Except String OauthData) → TokenState →
    List (Except DarajaError (Option String × Bool)) × TokenState
  | [], st => ([], st)
  | (now, fetch) :: calls, st =>
      match get_oauth c now st fetch with
      | .error e =>
          let rest := runGetOauth c calls st
          (.error e :: rest.1, rest.2)
      | .ok (tok, st', fetched) =>
          let rest := runGetOauth c calls st'
          (.ok (tok, fetched) :: rest.1, rest.2)

/-! ### Gateway request payloads -/

/-- A JSON scalar as used in the client's payloads. -/
inductive JVal where
  | s (v : String)
  | i (v : Int)
deriving DecidableEq, Repr

/-- Python string slicing `s[:n]` (by code points). -/
def pySlice (s : String) (n : Nat) : String := String.mk (s.data.take n)

/-- The JSON body built by `simulate_stk_push`, keys in source order.
`timestamp` is the `self._get_timestamp()` reading taken at call time. -/
def stkPushPayload (c : DarajaConfig) (callback phone : String) (amount : Int)
    (description : String) (timestamp : String) : List (String × JVal) :=
  [("BusinessShortCode", .s c.shortcode),
   ("Password", .s (generate_password c timestamp)),
   ("Timestamp", .s timestamp),
   ("TransactionType", .s "CustomerPayBillOnline"),
   ("Amount", .i amount),
   ("PartyA", .s phone),
   ("PartyB", .s c.shortcode),
   ("PhoneNumber", .s phone),
   ("CallBackURL", .s callback),
   ("AccountReference", .s (pySlice description 12)),
   ("TransactionDesc", .s description)]

/-- The JSON body built by `query_transaction_status`, keys in source order. -/
def stkQueryPayload (c : DarajaConfig) (checkoutRequestId timestamp : String) :
    List (String × JVal) :=
  [("BusinessShortCode", .s c.shortcode),
   ("Password", .s (generate_password c timestamp)),
   ("Timestamp", .s timestamp),
   ("CheckoutRequestID", .s checkoutRequestId)]

/-- The JSON body built by `register_callback_url`, keys in source order.
No timestamp is read and no password is generated on this path. -/
def registerUrlPayload (c : DarajaConfig) (url : String) : List (String × JVal) :=
  [("ShortCode", .s c.shortcode),
   ("ResponseType", .s "Completed"),
   ("ConfirmationURL", .s url),
   ("ValidationURL", .s url)]

/-- `simulate_stk_push`: obtains a token via `_get_oauth`, reads the clock
(`timestamp`), derives the password, and sends `stkPushPayload`.  The
embedding returns the payload it would POST together with the new cache
state. -/
def simulate_stk_push (c : DarajaConfig) (now : Int) (st : TokenState)
    (fetch : Except String OauthData) (timestamp : String)
    (callback phone : String) (amount : Int) (description : String) :
    Except DarajaError (List (String × JVal) × TokenState) :=
  match get_oauth c now st fetch with
  | .error e => .error e
  | .ok (_, st', _) => .ok (stkPushPayload c callback phone amount description timestamp, st')

/-- `query_transaction_status`, embedded like `simulate_stk_push`. -/
def query_transaction_status (c : DarajaConfig) (now : Int) (st : TokenState)
    (fetch : Except String OauthData) (timestamp : String)
    (checkoutRequestId : String) :
    Except DarajaError (List (String × JVal) × TokenState) :=
  match get_oauth c now st fetch with
  | .error e => .error e
  | .ok (_, st', _) => .ok (stkQueryPayload c checkoutRequestId timestamp, st')

/-- `register_callback_url`: obtains a token and sends `registerUrlPayload`.
No timestamp is read and `_generate_password` is never called. -/
def register_callback_url (c : DarajaConfig) (now : Int) (st : TokenState)
    (fetch : Except String OauthData) (url : String) :
    Except DarajaError (List (String × JVal) × TokenState) :=
  match get_oauth c now st fetch with
  | .error e => .error e
  | .ok (_, st', _) => .ok (registerUrlPayload c url, st')

/-! ### Theorems -/

/-- C2: for every timestamp string, the request signer is a pure function of
shortcode, passkey and timestamp whose password is base64 of the
concatenation `shortcode || passkey || timestamp` with no separators. -/
theorem c2_generate_password_is_b64_of_concat (c : DarajaConfig) (ts : String) :
    generate_password c ts
      = b64encode (strBytes c.shortcode ++ strBytes c.passkey ++ strBytes ts) := by
  unfold generate_password
  congr 1
  simp [strBytes, String.data_append]

/-- C3 counterexample: the claim's example is off by one character.  For
description `"School fees payment"` the payload's `AccountReference` is the
first 12 characters `"School fees "` (trailing space included), which differs
from the claimed `"School fees"` (11 characters). -/
theorem c3_accountReference_example_counterexample :
    (stkPushPayload ⟨none, none, "174379", "pk"⟩ "https://example.com/mpesa/callback"
        "254700000000" 1 "School fees payment" "20240101120000").lookup "AccountReference"
      = some (.s "School fees ")
    ∧ JVal.s "School fees " ≠ JVal.s "School fees" := by
  exact ⟨by decide, by decide⟩

/-- C3 (amended): `push_payment` sends `AccountReference` equal to the
description truncated to its first 12 characters and `TransactionDesc` equal
to the full untruncated description; for `"School fees payment"` the
truncation is `"School fees "` (the first 12 characters, whose last one is a
space), and the transaction description is unchanged. -/
theorem c3_stkPush_truncation (c : DarajaConfig) (cb ph desc ts : String) (amt : Int) :
    (stkPushPayload c cb ph amt desc ts).lookup "AccountReference"
        = some (.s (pySlice desc 12))
    ∧ (stkPushPayload c cb ph amt desc ts).lookup "TransactionDesc" = some (.s desc)
    ∧ pySlice "School fees payment" 12 = "School fees " := by
  refine ⟨?_, ?_, by decide⟩ <;> simp [stkPushPayload, List.lookup]

/-- C8: `register_callback_url(url)` sends exactly the four fields
`ShortCode`, `ResponseType = "Completed"`, `ConfirmationURL`, `ValidationURL`,
with the identical caller-supplied `url` in both URL slots, and the payload is
unsigned: it carries no `Password` and no `Timestamp` field. -/
theorem c8_register_callback_url_payload (c : DarajaConfig) (url : String) :
    (registerUrlPayload c url).lookup "ConfirmationURL" = some (.s url)
    ∧ (registerUrlPayload c url).lookup "ValidationURL" = some (.s url)
    ∧ (registerUrlPayload c url).lookup "ResponseType" = some (.s "Completed")
    ∧ (registerUrlPayload c url).lookup "ShortCode" = some (.s c.shortcode)
    ∧ (registerUrlPayload c url).lookup "Password" = none
    ∧ (registerUrlPayload c url).lookup "Timestamp" = none
    ∧ (registerUrlPayload c url).map Prod.fst
        = ["ShortCode", "ResponseType", "ConfirmationURL", "ValidationURL"] := by
  refine ⟨?_, ?_, ?_, ?_, ?_, ?_, ?_⟩ <;> simp [registerUrlPayload, List.lookup]

/-- C10: every signed payload is internally consistent: its `Password` field
is base64 of `shortcode ++ passkey ++ T` where `T` is exactly the value in
that same payload's `Timestamp` field, and both operations stamp their
payload with the clock reading `ts` taken at call time. -/
theorem c10_signed_payload_consistency (c : DarajaConfig) (now : Int)
    (st : TokenState) (fetch : Except String OauthData)
    (ts cb ph desc cri : String) (amt : Int) :
    (stkPushPayload c cb ph amt desc ts).lookup "Timestamp" = some (.s ts)
    ∧ (stkPushPayload c cb ph amt desc ts).lookup "Password"
        = some (.s (b64encode (strBytes (c.shortcode ++ c.passkey ++ ts))))
    ∧ (stkQueryPayload c cri ts).lookup "Timestamp" = some (.s ts)
    ∧ (stkQueryPayload c cri ts).lookup "Password"
        = some (.s (b64encode (strBytes (c.shortcode ++ c.passkey ++ ts))))
    ∧ (simulate_stk_push c now st fetch ts cb ph amt desc).toOption.map Prod.fst
        = (get_oauth c now st fetch).toOption.map
            (fun _ => stkPushPayload c cb ph amt desc ts)
    ∧ (query_transaction_status c now st fetch ts cri).toOption.map Prod.fst
        = (get_oauth c now st fetch).toOption.map (fun _ => stkQueryPayload c cri ts) := by
  refine ⟨?_, ?_, ?_, ?_, ?_, ?_⟩
  · simp [stkPushPayload, List.lookup]
  · simp [stkPushPayload, List.lookup, generate_password]
  · simp [stkQueryPayload, List.lookup]
  · simp [stkQueryPayload, List.lookup, generate_password]
  · unfold simulate_stk_push
    cases h : get_oauth c now st fetch with
    | error e => simp [h, Except.toOption]
    | ok r => simp [h, Except.toOption]
  · unfold query_transaction_status
    cases h : get_oauth c now st fetch with
    | error e => simp [h, Except.toOption]
    | ok r => simp [h, Except.toOption]

/-- Helper for C7: from any cache state without a truthy token, a call with
absent credentials fails with the configuration error and leaves the state
unchanged, for every call sequence. -/
theorem runGetOauth_no_creds (c : DarajaConfig)
    (hcred : ¬(pyTruthyStr c.consumerKey = true ∧ pyTruthyStr c.consumerSecret = true)) :
    ∀ (calls : List (Int × Except String OauthData)) (st : TokenState),
      pyTruthyStr st.token = false →
      (runGetOauth c calls st).2 = st
      ∧ ∀ r ∈ (runGetOauth c calls st).1,
          r = .error (.configurationError
            "DARAJA_CONSUMER_KEY and DARAJA_CONSUMER_SECRET must be set in .env or passed in")
  | [], st, _ => by simp [runGetOauth]
  | (now, fetch) :: calls, st, htok => by
      have hmiss : ¬(pyTruthyStr st.token = true ∧ now < st.tokenExpiresAt - 30) := by
        simp [htok]
      have hcall : get_oauth c now st fetch
          = .error (.configurationError
            "DARAJA_CONSUMER_KEY and DARAJA_CONSUMER_SECRET must be set in .env or passed in") := by
        simp [get_oauth, hmiss, hcred]
      have ih := runGetOauth_no_creds c hcred calls st htok
      simp only [runGetOauth, hcall]
      refine ⟨ih.1, ?_⟩
      intro r hr
      rcases List.mem_cons.mp hr with h | h
      · exact h
      · exact ih.2 r h

/-- C7: while the consumer key or consumer secret is absent (falsy), every
`get_token()` call in every call sequence starting from the fresh client
state fails with the missing-credentials `ConfigurationError`, and the token
cache never changes. -/
theorem c7_get_token_missing_credentials (c : DarajaConfig)
    (hcred : ¬(pyTruthyStr c.consumerKey = true ∧ pyTruthyStr c.consumerSecret = true)) :
    ∀ calls : List (Int × Except String OauthData),
      (runGetOauth c calls TokenState.init).2 = TokenState.init
      ∧ ∀ r ∈ (runGetOauth c calls TokenState.init).1,
          r = .error (.configurationError
            "DARAJA_CONSUMER_KEY and DARAJA_CONSUMER_SECRET must be set in .env or passed in") :=
  fun calls => runGetOauth_no_creds c hcred calls TokenState.init rfl

/-- C7 witness at a concrete client missing both credentials, over a
two-call sequence. -/
theorem c7_get_token_missing_credentials_witness :
    (runGetOauth ⟨none, none, "174379", "pk"⟩
        [(1000, .ok ⟨some "tok", none⟩), (2000, .error "down")] TokenState.init).2
      = TokenState.init
    ∧ ∀ r ∈ (runGetOauth ⟨none, none, "174379", "pk"⟩
        [(1000, .ok ⟨some "tok", none⟩), (2000, .error "down")] TokenState.init).1,
        r = .error (.configurationError
          "DARAJA_CONSUMER_KEY and DARAJA_CONSUMER_SECRET must be set in .env or passed in") :=
  c7_get_token_missing_credentials ⟨none, none, "174379", "pk"⟩ (by decide)
    [(1000, .ok ⟨some "tok", none⟩), (2000, .error "down")]

/-- C1: the token cache policy.  (i) A call returns the cached token with no
network fetch exactly on the sole cache-hit path (truthy cached token and
`now < expires_at - 30`); on any other state a fresh OAuth fetch is performed
and its token stored with `expires_at = now + expires_in`.  (ii) With valid
credentials and a successful exchange, two calls from the fresh process state
without time advancing perform exactly one network fetch: the first call's
fetch flag is `true`, the second call's is `false` whatever its network
oracle would have answered.  (iii) A cached token with
`expires_at = now + 10` (inside the 30-second margin) is never returned: the
call takes the fetch path and returns the freshly fetched token. -/
theorem c1_get_token_cache_policy (c : DarajaConfig) (now : Int) (st : TokenState)
    (fetch fetch₂ : Except String OauthData) (d : OauthData)
    (hcred : pyTruthyStr c.consumerKey = true ∧ pyTruthyStr c.consumerSecret = true)
    (hfetch : fetch = .ok d)
    (htok : pyTruthyStr d.accessToken = true)
    (hexp : 30 < d.expiresIn.getD 3600) :
    ((pyTruthyStr st.token = true ∧ now < st.tokenExpiresAt - 30) →
        get_oauth c now st fetch = .ok (st.token, st, false))
    ∧ (¬(pyTruthyStr st.token = true ∧ now < st.tokenExpiresAt - 30) →
        get_oauth c now st fetch
          = .ok (d.accessToken, ⟨d.accessToken, now + d.expiresIn.getD 3600⟩, true))
    ∧ runGetOauth c [(now, fetch), (now, fetch₂)] TokenState.init
        = ([.ok (d.accessToken, true), .ok (d.accessToken, false)],
           ⟨d.accessToken, now + d.expiresIn.getD 3600⟩)
    ∧ (st.tokenExpiresAt = now + 10 →
        get_oauth c now st fetch
          = .ok (d.accessToken, ⟨d.accessToken, now + d.expiresIn.getD 3600⟩, true)) := by
  have hmiss : ∀ s : TokenState,
      ¬(pyTruthyStr s.token = true ∧ now < s.tokenExpiresAt - 30) →
      get_oauth c now s fetch
        = .ok (d.accessToken, ⟨d.accessToken, now + d.expiresIn.getD 3600⟩, true) := by
    intro s hs
    simp [get_oauth, hs, hcred, hfetch]
  refine ⟨?_, hmiss st, ?_, ?_⟩
  · intro h
    simp [get_oauth, h]
  · have h1 : get_oauth c now TokenState.init fetch
        = .ok (d.accessToken, ⟨d.accessToken, now + d.expiresIn.getD 3600⟩, true) := by
      refine hmiss TokenState.init ?_
      simp [TokenState.init, pyTruthyStr]
    have h2 : get_oauth c now ⟨d.accessToken, now + d.expiresIn.getD 3600⟩ fetch₂
        = .ok (d.accessToken, ⟨d.accessToken, now + d.expiresIn.getD 3600⟩, false) := by
      have hc : pyTruthyStr d.accessToken = true
          ∧ now < now + d.expiresIn.getD 3600 - 30 := ⟨htok, by omega⟩
      simp [get_oauth, hc]
    simp [runGetOauth, h1, h2]
  · intro h
    refine hmiss st ?_
    rw [h]
    rintro ⟨-, hlt⟩
    omega

/-- C1 witness: concrete credentials, a cached token expiring 10 seconds from
now, and a successful OAuth exchange returning `expires_in = 3599`. -/
theorem c1_get_token_cache_policy_witness :
    ((pyTruthyStr (some "old") = true ∧ (1000 : Int) < 1010 - 30) →
        get_oauth ⟨some "k", some "s", "174379", "pk"⟩ 1000 ⟨some "old", 1010⟩
          (.ok ⟨some "fresh", some 3599⟩) = .ok (some "old", ⟨some "old", 1010⟩, false))
    ∧ (¬(pyTruthyStr (some "old") = true ∧ (1000 : Int) < 1010 - 30) →
        get_oauth ⟨some "k", some "s", "174379", "pk"⟩ 1000 ⟨some "old", 1010⟩
          (.ok ⟨some "fresh", some 3599⟩)
          = .ok (some "fresh", ⟨some "fresh", 1000 + (Option.some (3599 : Int)).getD 3600⟩, true))
    ∧ runGetOauth ⟨some "k", some "s", "174379", "pk"⟩
        [(1000, .ok ⟨some "fresh", some 3599⟩), (1000, .error "second call never fetches")]
        TokenState.init
        = ([.ok (some "fresh", true), .ok (some "fresh", false)],
           ⟨some "fresh", 1000 + (Option.some (3599 : Int)).getD 3600⟩)
    ∧ ((1010 : Int) = 1000 + 10 →
        get_oauth ⟨some "k", some "s", "174379", "pk"⟩ 1000 ⟨some "old", 1010⟩
          (.ok ⟨some "fresh", some 3599⟩)
          = .ok (some "fresh", ⟨some "fresh", 1000 + (Option.some (3599 : Int)).getD 3600⟩, true)) :=
  c1_get_token_cache_policy ⟨some "k", some "s", "174379", "pk"⟩ 1000 ⟨some "old", 1010⟩
    (.ok ⟨some "fresh", some 3599⟩) (.error "second call never fetches")
    ⟨some "fresh", some 3599⟩ (by decide) rfl (by decide) (by decide)

/-! ### Documentation text extraction (`_extract_text_paragraphs`) -/

/-- Case-insensitive literal prefix test: `pat` is given lowercase. -/
def startsWithCI (pat : List Char) (s : List Char) : Bool :=
  decide ((s.take pat.length).map Char.toLower = pat)

/-- Drop everything up to and including the first occurrence of `t`
(`none` if `t` does not occur). -/
def dropAfterChar (t : Char) : List Char → Option (List Char)
  | [] => none
  | c :: rest => if c = t then some rest else dropAfterChar t rest

/-- Drop everything up to and including the first case-insensitive occurrence
of `pat` (`none` if it does not occur). -/
def dropAfterCI (pat : List Char) : List Char → Option (List Char)
  | [] => none
  | c :: rest =>
      if startsWithCI pat (c :: rest) then some ((c :: rest).drop pat.length)
      else dropAfterCI pat rest

/-- One pass of `re.sub(r'(?is)<TAG.*?>.*?</TAG>', '', text)` for a literal
tag: at each position, a case-insensitive `<TAG`, the shortest run to a `>`,
then the shortest run to the closing `</TAG>` is deleted; otherwise the
character is kept and the scan advances.  (If the first `>` after `<TAG` has
no `</TAG>` anywhere after it, no later `>` can have one either, so the
regex fails at this position — the scanner mirrors that.)  `fuel` is the
input length: every step consumes at least one character. -/
def subTagBlock (openPat closePat : List Char) : Nat → List Char → List Char
  | 0, s => s
  | _, [] => []
  | fuel + 1, c :: rest =>
      let s := c :: rest
      let m : Option (List Char) :=
        if startsWithCI openPat s then
          match dropAfterChar '>' (s.drop openPat.length) with
          | none => none
          | some r1 => dropAfterCI closePat r1
        else none
      match m with
      | some r2 => subTagBlock openPat closePat fuel r2
      | none => c :: subTagBlock openPat closePat fuel rest

/-- The alternatives of `(p|div|h[1-6]|li|br|section|article)`, in the
pattern's order. -/
def blockTagNames : List (List Char) :=
  ["p".data, "div".data, "h1".data, "h2".data, "h3".data, "h4".data,
   "h5".data, "h6".data, "li".data, "br".data, "section".data, "article".data]

/-- First alternative (in pattern order) that matches case-insensitively at
the head of `s`; returns the remainder after the name. -/
def tryTagNames : List (List Char) → List Char → Option (List Char)
  | [], _ => none
  | n :: ns, s => if startsWithCI n s then some (s.drop n.length) else tryTagNames ns s

/-- `re.sub(r'(?i)</?(p|div|h[1-6]|li|br|section|article)[^>]*>', '\n', text)`:
a `<`, an optional `/`, one of the block tag names, then everything up to the
next `>`, replaced by a newline. -/
def subBlockTags : Nat → List Char → List Char
  | 0, s => s
  | _, [] => []
  | fuel + 1, c :: rest =>
      let m : Option (List Char) :=
        if c = '<' then
          let t := match rest with
            | '/' :: r => r
            | r => r
          match tryTagNames blockTagNames t with
          | none => none
          | some afterName => dropAfterChar '>' afterName
        else none
      match m with
      | some r2 => '\n' :: subBlockTags fuel r2
      | none => c :: subBlockTags fuel rest

/-- `re.sub(r'<[^>]+>', '', text)`: drop every `<...>` group with at least
one character between the brackets, none of them `>`. -/
def subRemainingTags : Nat → List Char → List Char
  | 0, s => s
  | _, [] => []
  | fuel + 1, c :: rest =>
      let m : Option (List Char) :=
        if c = '<' then
          match rest with
          | [] => none
          | r0 :: _ => if r0 = '>' then none else dropAfterChar '>' rest
        else none
      match m with
      | some r2 => subRemainingTags fuel r2
      | none => c :: subRemainingTags fuel rest

/-- `re.sub(r'\n{2,}', '\n\n', text)`: every maximal run of two or more
newlines becomes exactly two. -/
def collapseNewlineRuns : Nat → List Char → List Char
  | 0, s => s
  | _, [] => []
  | fuel + 1, c :: rest =>
      if c = '\n' ∧ rest.head? = some '\n' then
        '\n' :: '\n' :: collapseNewlineRuns fuel (rest.dropWhile (· == '\n'))
      else c :: collapseNewlineRuns fuel rest

/-- Split `s` before the first occurrence of `sep` (`none` if absent),
dropping the separator. -/
def breakOnSep (sep : List Char) : List Char → Option (List Char × List Char)
  | [] => none
  | c :: rest =>
      if sep.isPrefixOf (c :: rest) then some ([], (c :: rest).drop sep.length)
      else
        match breakOnSep sep rest with
        | none => none
        | some (pre, post) => some (c :: pre, post)

/-- `str.split(sep)` for a non-empty separator: split at each
non-overlapping occurrence, scanning left to right. -/
def pySplitSep (sep : List Char) : Nat → List Char → List (List Char)
  | 0, s => [s]
  | fuel + 1, s =>
      match breakOnSep sep s with
      | none => [s]
      | some (pre, post) => pre :: pySplitSep sep fuel post

/-- Characters removed by `str.strip()` (the ASCII whitespace subset; the
extraction pipeline and the claims only involve ASCII whitespace). -/
def isPySpace (c : Char) : Bool :=
  c == ' ' || c == '\t' || c == '\n' || c == '\r' || c == '\x0b' || c == '\x0c'

/-- `s.strip()`. -/
def pyStrip (s : List Char) : List Char :=
  ((s.dropWhile isPySpace).reverse.dropWhile isPySpace).reverse

/-- `DarajaClient._extract_text_paragraphs`: strip script/style blocks,
turn block-level tags into newlines, drop remaining tags, collapse newline
runs, split on blank lines, and keep the stripped non-empty paragraphs. -/
def extract_text_paragraphs (html : String) : List String :=
  let t0 := html.data
  let t1 := subTagBlock "<script".data "</script>".data t0.length t0
  let t2 := subTagBlock "<style".data "</style>".data t1.length t1
  let t3 := subBlockTags t2.length t2
  let t4 := subRemainingTags t3.length t3
  let t5 := collapseNewlineRuns t4.length t4
  ((pySplitSep "\n\n".data (t5.length + 1) t5).map pyStrip).filterMap
    (fun p => if p = [] then none else some (String.mk p))

/-- `DarajaClient._build_docs_index` applied to already-fetched sources: a
`(url, some body)` source contributes its extracted paragraphs tagged with
`url`; a failed fetch `(url, none)` is logged and skipped. -/
def build_docs_index (sources : List (String × Option String)) : List (String × String) :=
  (sources.map (fun src =>
    match src.2 with
    | none => []
    | some body => (extract_text_paragraphs body).map (fun p => (p, src.1)))).flatten

/-- C6: indexing a documentation source whose body is
`"<p>Hello world</p><p>Goodbye</p>"` yields exactly the two passages
`"Hello world"` and `"Goodbye"`, in that order, each tagged with that
source's URL. -/
theorem c6_index_round_trip (url : String) :
    extract_text_paragraphs "<p>Hello world</p><p>Goodbye</p>"
      = ["Hello world", "Goodbye"]
    ∧ build_docs_index [(url, some "<p>Hello world</p><p>Goodbye</p>")]
      = [("Hello world", url), ("Goodbye", url)] := by
  have h : extract_text_paragraphs "<p>Hello world</p><p>Goodbye</p>"
      = ["Hello world", "Goodbye"] := by decide
  exact ⟨h, by simp [build_docs_index, h]⟩

/-! ### `difflib.SequenceMatcher` (as used by `doc_search`)

`doc_search` constructs `SequenceMatcher(None, q, p_low)` — `isjunk` is
`None`, so `bjunk` is empty and the two junk-extension loops of
`find_longest_match` can never run; only the `autojunk` heuristic (purging
"popular" elements from `b2j` when `len(b) >= 200`) remains. -/

/-- `autojunk`: an element of `b` is popular when `len(b) >= 200` and it
occurs more than `len(b) // 100 + 1` times. -/
def isPopular (b : List Char) (c : Char) : Bool :=
  decide (200 ≤ b.length) && decide (b.length / 100 + 1 < b.count c)

/-- `b2j[c]`: the ascending list of indices of `c` in `b`, with popular
elements purged (an empty list for them, like a missing key). -/
def b2jIndices (b : List Char) (c : Char) : List Nat :=
  if isPopular b c then []
  else (List.range b.length).filter (fun j => b.getD j ' ' == c)

/-- The body of the inner `for j in b2j.get(a[i], nothing)` loop of
`find_longest_match`: `k = newj2len[j] = j2len.get(j-1, 0) + 1`, updating the
best block when `k > bestsize`.  The accumulator carries `newj2len` (as a
total function defaulting to 0, the dict's `get` default) and
`(besti, bestj, bestsize)`. -/
def flmInnerStep (j2lenOld : Nat → Nat) (i : Nat)
    (acc : (Nat → Nat) × Nat × Nat × Nat) (j : Nat) :
    (Nat → Nat) × Nat × Nat × Nat :=
  let k := (if j = 0 then 0 else j2lenOld (j - 1)) + 1
  let nj : Nat → Nat := fun j' => if j' = j then k else acc.1 j'
  if acc.2.2.2 < k then (nj, i + 1 - k, j + 1 - k, k) else (nj, acc.2)

/-- The outer `for i in range(alo, ahi)` loop of `find_longest_match`:
`n` rows remain, `i` is the current row.  Each row starts a fresh `newj2len`
and folds `flmInnerStep` over the in-range occurrences of `a[i]` in `b`. -/
def flmRows (a b : List Char) (blo bhi : Nat) :
    Nat → Nat → (Nat → Nat) → Nat × Nat × Nat → Nat × Nat × Nat
  | _, 0, _, best => best
  | i, n + 1, j2len, best =>
      let js := (b2jIndices b (a.getD i ' ')).filter
        (fun j => decide (blo ≤ j) && decide (j < bhi))
      let step := js.foldl (flmInnerStep j2len i) ((fun _ => 0), best)
      flmRows a b blo bhi (i + 1) n step.1 step.2

/-- The first pair of `while` loops: extend the best block by equal elements
on the left (`isbjunk` is constantly false here since `isjunk=None`).
`fuel` bounds the loop; `besti + 1` iterations always suffice since `besti`
strictly decreases. -/
def flmExtendLeft (a b : List Char) (alo blo : Nat) :
    Nat → Nat × Nat × Nat → Nat × Nat × Nat
  | 0, best => best
  | fuel + 1, (bi, bj, bs) =>
      if alo < bi ∧ blo < bj ∧ a.getD (bi - 1) ' ' = b.getD (bj - 1) ' ' then
        flmExtendLeft a b alo blo fuel (bi - 1, bj - 1, bs + 1)
      else (bi, bj, bs)

/-- The second `while` loop: extend by equal elements on the right.
`ahi + 1` iterations always suffice since `besti + bestsize` strictly
increases and stays at most `ahi`. -/
def flmExtendRight (a b : List Char) (ahi bhi : Nat) :
    Nat → Nat × Nat × Nat → Nat × Nat × Nat
  | 0, best => best
  | fuel + 1, (bi, bj, bs) =>
      if bi + bs < ahi ∧ bj + bs < bhi ∧ a.getD (bi + bs) ' ' = b.getD (bj + bs) ' ' then
        flmExtendRight a b ahi bhi fuel (bi, bj, bs + 1)
      else (bi, bj, bs)

/-- `SequenceMatcher.find_longest_match(alo, ahi, blo, bhi)` for
`isjunk=None`: the dynamic-programming scan, then the two non-junk extension
loops.  (The final two junk-extension loops are no-ops: `bjunk` is empty.) -/
def find_longest_match (a b : List Char) (alo ahi blo bhi : Nat) : Nat × Nat × Nat :=
  let dp := flmRows a b blo bhi alo (ahi - alo) (fun _ => 0) (alo, blo, 0)
  let e1 := flmExtendLeft a b alo blo (dp.1 + 1) dp
  flmExtendRight a b ahi bhi (ahi + 1) e1

/-- The total size of the matching blocks of `get_matching_blocks()` on the
range `a[alo:ahi]` vs `b[blo:bhi]`: the longest match, recursively plus the
matches to its left and to its right.  (The queue order and the
adjacent-block merge in the source do not change the total size.)  Each
productive level removes at least one element from the ranges, so fuel
`la + lb + 1` suffices at the top level. -/
def matchesTotal (a b : List Char) : Nat → Nat → Nat → Nat → Nat → Nat
  | 0, _, _, _, _ => 0
  | fuel + 1, alo, ahi, blo, bhi =>
      let m := find_longest_match a b alo ahi blo bhi
      if m.2.2 = 0 then 0
      else
        m.2.2 + matchesTotal a b fuel alo m.1 blo m.2.1
          + matchesTotal a b fuel (m.1 + m.2.2) ahi (m.2.1 + m.2.2) bhi

/-- `SequenceMatcher(None, a, b).ratio()`:
`2 * matches / (len(a) + len(b))`, and `1.0` for two empty sequences. -/
def seqMatcherSimilarity (a b : List Char) : ℚ :=
  let m := matchesTotal a b (a.length + b.length + 1) 0 a.length 0 b.length
  if a.length + b.length = 0 then 1 else (2 * m : ℚ) / (a.length + b.length : ℚ)

/-! ### Scoring and `doc_search` -/

/-- A word character of `re.findall(r"\w+", s)` (ASCII view; the claims and
all embedded inputs are ASCII). -/
def isWordChar (c : Char) : Bool := c.isAlphanum || c == '_'

/-- `re.findall(r"\w+", s)`: the maximal runs of word characters, fueled by
the input length. -/
def wordTokens : Nat → List Char → List (List Char)
  | 0, _ => []
  | _, [] => []
  | fuel + 1, c :: rest =>
      if isWordChar c then
        (c :: rest.takeWhile isWordChar) :: wordTokens fuel (rest.dropWhile isWordChar)
      else wordTokens fuel rest

/-- The token-overlap boost of `doc_search`:
`len(q_tokens & p_tokens) / len(q_tokens)` on the two token *sets*
(modelled by `dedup`), and `0.0` when the query has no tokens. -/
def tokenOverlap (q p : List Char) : ℚ :=
  let qT := (wordTokens q.length q).dedup
  let pT := (wordTokens p.length p).dedup
  if qT = [] then 0
  else ((qT.filter (fun t => pT.contains t)).length : ℚ) / (qT.length : ℚ)

/-- The per-passage score of `doc_search`:
`0.6 * SequenceMatcher(None, q, p_low).ratio() + 0.4 * overlap` on the
lowercased query and passage (`str.lower`, ASCII view). -/
def scoreOf (query para : String) : ℚ :=
  let q := query.data.map Char.toLower
  let p := para.data.map Char.toLower
  (0.6 : ℚ) * seqMatcherSimilarity q p + (0.4 : ℚ) * tokenOverlap q p

/-- Round half-to-even to an integer: the semantics of Python `round` on the
exact rational value.  (The source rounds a binary float; the two agree
except within a double ulp of a tie, which no claim exercises.) -/
def roundHalfEven (x : ℚ) : ℤ :=
  if x - ⌊x⌋ < 1 / 2 then ⌊x⌋
  else if 1 / 2 < x - ⌊x⌋ then ⌊x⌋ + 1
  else if 2 ∣ ⌊x⌋ then ⌊x⌋ else ⌊x⌋ + 1

/-- `round(float(score), 4)`. -/
def pyRound4 (x : ℚ) : ℚ := (roundHalfEven (x * 10000) : ℚ) / 10000

/-- Insert a candidate into a descending-sorted list, passing only strictly
greater scores, so equal scores keep their original relative order. -/
def insertStableDesc (x : ℚ × String × String) :
    List (ℚ × String × String) → List (ℚ × String × String)
  | [] => [x]
  | y :: ys => if x.1 < y.1 then y :: insertStableDesc x ys else x :: y :: ys

/-- `candidates.sort(reverse=True, key=lambda t: t[0])`: Python's sort is
stable, and every stable descending sort on the score computes the same
list, here realised as stable insertion sort. -/
def pySortDesc : List (ℚ × String × String) → List (ℚ × String × String)
  | [] => []
  | x :: xs => insertStableDesc x (pySortDesc xs)

/-- The `candidates` list of `doc_search`: one `(score, para, src)` triple
per indexed passage, in index order. -/
def docCandidates (index : List (String × String)) (query : String) :
    List (ℚ × String × String) :=
  index.map (fun ps => (scoreOf query ps.1, ps.1, ps.2))

/-- One reported match: `{'paragraph': ..., 'source': ..., 'score': ...}`. -/
structure SearchMatch where
  paragraph : String
  source : String
  score : ℚ
deriving DecidableEq, Repr

/-- The dict returned by `doc_search` (`matchList` embeds the source's
`matches` key, whose name Lean reserves). -/
structure DocSearchResult where
  query : String
  matchList : List SearchMatch
  note : Option String
deriving DecidableEq, Repr

/-- `DarajaClient.doc_search(query, top_n)`, applied to the already-built
index (`self._docs_index` after the lazy `_build_docs_index`).  `top_n : Nat`
models the slice `candidates[:top_n]` for the non-negative counts the claims
range over. -/
def doc_search (index : List (String × String)) (query : String) (top_n : Nat) :
    Except DarajaError DocSearchResult :=
  if query = "" ∨ pyStrip query.data = [] then
    .error (.validationError "query must be a non-empty string")
  else if index = [] then
    .ok ⟨query, [],
      some "No documentation indexed; set DARAJA_DOCS_URL or ensure network access."⟩
  else
    .ok ⟨query,
      ((pySortDesc (docCandidates index query)).take top_n).map
        (fun t => ⟨t.2.1, t.2.2, pyRound4 t.1⟩),
      none⟩

theorem insertStableDesc_length (x : ℚ × String × String)
    (l : List (ℚ × String × String)) :
    (insertStableDesc x l).length = l.length + 1 := by
  induction l with
  | nil => rfl
  | cons y ys ih =>
      by_cases h : x.1 < y.1 <;> simp [insertStableDesc, h, ih]

theorem pySortDesc_length (l : List (ℚ × String × String)) :
    (pySortDesc l).length = l.length := by
  induction l with
  | nil => rfl
  | cons x xs ih => simp [pySortDesc, insertStableDesc_length, ih]

/-- C5: `doc_search` fails with the `ValidationError` exactly when the query
is empty or whitespace-only (in particular on `""` and `"   "`); on a valid
query over an empty index it returns — never raises — an empty match list
together with the explanatory note. -/
theorem c5_doc_search_validation (index : List (String × String)) (q : String) (n : Nat) :
    (doc_search index q n = .error (.validationError "query must be a non-empty string")
      ↔ (q = "" ∨ pyStrip q.data = []))
    ∧ (¬(q = "" ∨ pyStrip q.data = []) → index = [] →
        doc_search index q n = .ok ⟨q, [],
          some "No documentation indexed; set DARAJA_DOCS_URL or ensure network access."⟩)
    ∧ doc_search index "" n = .error (.validationError "query must be a non-empty string")
    ∧ doc_search index "   " n = .error (.validationError "query must be a non-empty string") := by
  have hsp : pyStrip "   ".data = [] := by decide
  refine ⟨⟨?_, ?_⟩, ?_, ?_, ?_⟩
  · intro h
    by_contra hq
    by_cases hi : index = [] <;> simp [doc_search, hq, hi] at h
  · intro h
    simp [doc_search, h]
  · intro hq hi
    simp [doc_search, hq, hi]
  · simp [doc_search]
  · simp [doc_search, hsp]

/-- C9: `doc_search` does not validate `top_n`: for every valid query over a
non-empty index and every `top_n ≥ 0` it succeeds with exactly
`min top_n (index size)` matches — `top_n = 0` gives an empty match list
without error, and an oversized `top_n` returns every indexed passage. -/
theorem c9_doc_search_top_n_unvalidated (index : List (String × String))
    (q : String) (n : Nat)
    (hq : ¬(q = "" ∨ pyStrip q.data = [])) (hi : index ≠ []) :
    ∃ r, doc_search index q n = .ok r
      ∧ r.matchList.length = min n index.length ∧ r.note = none := by
  have h : doc_search index q n = .ok ⟨q,
      ((pySortDesc (docCandidates index q)).take n).map
        (fun t => ⟨t.2.1, t.2.2, pyRound4 t.1⟩), none⟩ := by
    simp [doc_search, hq, hi]
  refine ⟨_, h, ?_, rfl⟩
  simp [pySortDesc_length, docCandidates]

/-- C9 witness: `top_n = 0` and an oversized `top_n = 5` on a two-passage
index. -/
theorem c9_doc_search_top_n_unvalidated_witness :
    (∃ r, doc_search [("Hello world", "u"), ("Goodbye", "u")] "hello" 0 = .ok r
      ∧ r.matchList.length = min 0 [("Hello world", "u"), ("Goodbye", "u")].length
      ∧ r.note = none)
    ∧ (∃ r, doc_search [("Hello world", "u"), ("Goodbye", "u")] "hello" 5 = .ok r
      ∧ r.matchList.length = min 5 [("Hello world", "u"), ("Goodbye", "u")].length
      ∧ r.note = none) :=
  ⟨c9_doc_search_top_n_unvalidated [("Hello world", "u"), ("Goodbye", "u")] "hello" 0
      (by decide) (by decide),
   c9_doc_search_top_n_unvalidated [("Hello world", "u"), ("Goodbye", "u")] "hello" 5
      (by decide) (by decide)⟩

/-! ### Bounds for `find_longest_match` and the similarity score -/

/-- Invariant of the `j2len` dictionaries entering row `i`: a nonzero entry
at `j` is an in-range chain ending at `b[j]` whose length is at most
`j + 1 - blo` and at most the number of processed rows `i - alo`. -/
def J2Inv (alo blo bhi i : Nat) (f : Nat → Nat) : Prop :=
  ∀ j, f j ≠ 0 → blo ≤ j ∧ j < bhi ∧ f j + blo ≤ j + 1 ∧ f j + alo ≤ i

/-- Invariant of a best block `(bi, bj, bs)`: it lies inside
`[alo, bound) × [blo, bhi)`. -/
def BestInv (alo blo bhi bound bi bj bs : Nat) : Prop :=
  alo ≤ bi ∧ blo ≤ bj ∧ bi + bs ≤ bound ∧ bj + bs ≤ bhi

theorem bestInv_mono {alo blo bhi m m' bi bj bs : Nat}
    (h : BestInv alo blo bhi m bi bj bs) (hm : m ≤ m') :
    BestInv alo blo bhi m' bi bj bs :=
  ⟨h.1, h.2.1, le_trans h.2.2.1 hm, h.2.2.2⟩

theorem flmInner_fold_inv (j2lenOld : Nat → Nat) (alo blo bhi i : Nat)
    (hai : alo ≤ i) (hold : J2Inv alo blo bhi i j2lenOld) :
    ∀ (js : List Nat) (acc : (Nat → Nat) × Nat × Nat × Nat),
      (∀ j ∈ js, blo ≤ j ∧ j < bhi) →
      J2Inv alo blo bhi (i + 1) acc.1 →
      BestInv alo blo bhi (i + 1) acc.2.1 acc.2.2.1 acc.2.2.2 →
      J2Inv alo blo bhi (i + 1) (js.foldl (flmInnerStep j2lenOld i) acc).1
      ∧ BestInv alo blo bhi (i + 1) (js.foldl (flmInnerStep j2lenOld i) acc).2.1
          (js.foldl (flmInnerStep j2lenOld i) acc).2.2.1
          (js.foldl (flmInnerStep j2lenOld i) acc).2.2.2 := by
  intro js
  induction js with
  | nil => exact fun acc _ h1 h2 => ⟨h1, h2⟩
  | cons j0 js ih =>
      rintro ⟨accf, abi, abj, abs⟩ hjs h1 h2
      have hj : blo ≤ j0 ∧ j0 < bhi := hjs j0 (List.mem_cons_self j0 js)
      have hjs' : ∀ j' ∈ js, blo ≤ j' ∧ j' < bhi :=
        fun j' hmem => hjs j' (List.mem_cons_of_mem j0 hmem)
      have hKj : ((if j0 = 0 then 0 else j2lenOld (j0 - 1)) + 1) + blo ≤ j0 + 1 := by
        by_cases hj0 : j0 = 0
        · rw [hj0, if_pos rfl]
          have := hj.1
          omega
        · rw [if_neg hj0]
          by_cases hz : j2lenOld (j0 - 1) = 0
          · rw [hz]
            have := hj.1
            omega
          · have := (hold (j0 - 1) hz).2.2.1
            omega
      have hKi : ((if j0 = 0 then 0 else j2lenOld (j0 - 1)) + 1) + alo ≤ i + 1 := by
        by_cases hj0 : j0 = 0
        · rw [hj0, if_pos rfl]
          omega
        · rw [if_neg hj0]
          by_cases hz : j2lenOld (j0 - 1) = 0
          · rw [hz]
            omega
          · have := (hold (j0 - 1) hz).2.2.2
            omega
      rw [List.foldl_cons]
      apply ih
      · exact hjs'
      · intro j' hnz
        by_cases hje : j' = j0
        · have hval : (flmInnerStep j2lenOld i (accf, abi, abj, abs) j0).1 j0
              = (if j0 = 0 then 0 else j2lenOld (j0 - 1)) + 1 := by
            simp only [flmInnerStep]
            split <;> split <;> simp
          rw [hje] at hnz ⊢
          rw [hval]
          exact ⟨hj.1, hj.2, hKj, hKi⟩
        · have hval : (flmInnerStep j2lenOld i (accf, abi, abj, abs) j0).1 j'
              = accf j' := by
            simp only [flmInnerStep]
            split <;> split <;> simp [hje]
          rw [hval] at hnz ⊢
          exact h1 j' hnz
      · simp only [flmInnerStep]
        by_cases hlt : abs < (if j0 = 0 then 0 else j2lenOld (j0 - 1)) + 1
        · rw [if_pos hlt]
          refine ⟨?_, ?_, ?_, ?_⟩
          · show alo ≤ i + 1 - ((if j0 = 0 then 0 else j2lenOld (j0 - 1)) + 1)
            omega
          · show blo ≤ j0 + 1 - ((if j0 = 0 then 0 else j2lenOld (j0 - 1)) + 1)
            omega
          · show i + 1 - ((if j0 = 0 then 0 else j2lenOld (j0 - 1)) + 1)
                + ((if j0 = 0 then 0 else j2lenOld (j0 - 1)) + 1) ≤ i + 1
            omega
          · show j0 + 1 - ((if j0 = 0 then 0 else j2lenOld (j0 - 1)) + 1)
                + ((if j0 = 0 then 0 else j2lenOld (j0 - 1)) + 1) ≤ bhi
            have := hj.2
            omega
        · rw [if_neg hlt]
          exact h2

theorem flmRows_inv (a b : List Char) (alo blo bhi : Nat) :
    ∀ (n i : Nat) (j2len : Nat → Nat) (best : Nat × Nat × Nat),
      alo ≤ i →
      J2Inv alo blo bhi i j2len →
      BestInv alo blo bhi i best.1 best.2.1 best.2.2 →
      BestInv alo blo bhi (i + n) (flmRows a b blo bhi i n j2len best).1
        (flmRows a b blo bhi i n j2len best).2.1
        (flmRows a b blo bhi i n j2len best).2.2
  | 0, i, j2len, best, _, _, hb => by
      simpa [flmRows] using hb
  | n + 1, i, j2len, best, hai, hj, hb => by
      simp only [flmRows]
      have hmem : ∀ j ∈ (b2jIndices b (a.getD i ' ')).filter
          (fun j => decide (blo ≤ j) && decide (j < bhi)), blo ≤ j ∧ j < bhi := by
        intro j hjm
        have h' := List.of_mem_filter hjm
        simpa using h'
      have hstep := flmInner_fold_inv j2len alo blo bhi i hai hj
        ((b2jIndices b (a.getD i ' ')).filter (fun j => decide (blo ≤ j) && decide (j < bhi)))
        ((fun _ => 0), best) hmem (fun j hnz => absurd rfl hnz)
        (bestInv_mono hb (Nat.le_succ i))
      have hrec := flmRows_inv a b alo blo bhi n (i + 1) _ _ (by omega) hstep.1 hstep.2
      rw [show i + (n + 1) = (i + 1) + n from by omega]
      exact hrec

theorem flmExtendLeft_inv (a b : List Char) (alo blo bhi m : Nat) :
    ∀ (fuel : Nat) (t : Nat × Nat × Nat),
      BestInv alo blo bhi m t.1 t.2.1 t.2.2 →
      BestInv alo blo bhi m (flmExtendLeft a b alo blo fuel t).1
        (flmExtendLeft a b alo blo fuel t).2.1
        (flmExtendLeft a b alo blo fuel t).2.2
  | 0, t, h => by simpa [flmExtendLeft] using h
  | fuel + 1, (bi, bj, bs), h => by
      have h' : BestInv alo blo bhi m bi bj bs := h
      obtain ⟨h1, h2, h3, h4⟩ := h'
      rw [flmExtendLeft]
      split
      next hc =>
        obtain ⟨hc1, hc2, -⟩ := hc
        refine flmExtendLeft_inv a b alo blo bhi m fuel (bi - 1, bj - 1, bs + 1)
          ⟨?_, ?_, ?_, ?_⟩
        · show alo ≤ bi - 1
          omega
        · show blo ≤ bj - 1
          omega
        · show bi - 1 + (bs + 1) ≤ m
          omega
        · show bj - 1 + (bs + 1) ≤ bhi
          omega
      next => exact ⟨h1, h2, h3, h4⟩

theorem flmExtendRight_inv (a b : List Char) (alo blo ahi bhi : Nat) :
    ∀ (fuel : Nat) (t : Nat × Nat × Nat),
      BestInv alo blo bhi ahi t.1 t.2.1 t.2.2 →
      BestInv alo blo bhi ahi (flmExtendRight a b ahi bhi fuel t).1
        (flmExtendRight a b ahi bhi fuel t).2.1
        (flmExtendRight a b ahi bhi fuel t).2.2
  | 0, t, h => by simpa [flmExtendRight] using h
  | fuel + 1, (bi, bj, bs), h => by
      have h' : BestInv alo blo bhi ahi bi bj bs := h
      obtain ⟨h1, h2, h3, h4⟩ := h'
      rw [flmExtendRight]
      split
      next hc =>
        obtain ⟨hc1, hc2, -⟩ := hc
        refine flmExtendRight_inv a b alo blo ahi bhi fuel (bi, bj, bs + 1)
          ⟨?_, ?_, ?_, ?_⟩
        · show alo ≤ bi
          omega
        · show blo ≤ bj
          omega
        · show bi + (bs + 1) ≤ ahi
          omega
        · show bj + (bs + 1) ≤ bhi
          omega
      next => exact ⟨h1, h2, h3, h4⟩

theorem find_longest_match_bounds (a b : List Char) (alo ahi blo bhi : Nat)
    (hA : alo ≤ ahi) (hB : blo ≤ bhi) :
    BestInv alo blo bhi ahi (find_longest_match a b alo ahi blo bhi).1
      (find_longest_match a b alo ahi blo bhi).2.1
      (find_longest_match a b alo ahi blo bhi).2.2 := by
  simp only [find_longest_match]
  have hdp := flmRows_inv a b alo blo bhi (ahi - alo) alo (fun _ => 0) (alo, blo, 0)
    le_rfl (fun j hnz => absurd rfl hnz)
    (show BestInv alo blo bhi alo alo blo 0 from ⟨le_rfl, le_rfl, by omega, by omega⟩)
  rw [show alo + (ahi - alo) = ahi from by omega] at hdp
  exact flmExtendRight_inv a b alo blo ahi bhi _ _
    (flmExtendLeft_inv a b alo blo bhi ahi _ _ hdp)

theorem matchesTotal_le_min (a b : List Char) :
    ∀ (fuel alo ahi blo bhi : Nat), alo ≤ ahi → blo ≤ bhi →
      matchesTotal a b fuel alo ahi blo bhi ≤ min (ahi - alo) (bhi - blo)
  | 0, alo, ahi, blo, bhi, _, _ => by
      simp [matchesTotal]
  | fuel + 1, alo, ahi, blo, bhi, hA, hB => by
      simp only [matchesTotal]
      by_cases hk : (find_longest_match a b alo ahi blo bhi).2.2 = 0
      · rw [if_pos hk]
        exact Nat.zero_le _
      · rw [if_neg hk]
        obtain ⟨hb1, hb2, hb3, hb4⟩ := find_longest_match_bounds a b alo ahi blo bhi hA hB
        have h1 := matchesTotal_le_min a b fuel alo (find_longest_match a b alo ahi blo bhi).1
          blo (find_longest_match a b alo ahi blo bhi).2.1 hb1 hb2
        have h2 := matchesTotal_le_min a b fuel
          ((find_longest_match a b alo ahi blo bhi).1
            + (find_longest_match a b alo ahi blo bhi).2.2) ahi
          ((find_longest_match a b alo ahi blo bhi).2.1
            + (find_longest_match a b alo ahi blo bhi).2.2) bhi hb3 hb4
        omega

theorem seqMatcherSimilarity_bounds (a b : List Char) :
    0 ≤ seqMatcherSimilarity a b ∧ seqMatcherSimilarity a b ≤ 1 := by
  simp only [seqMatcherSimilarity]
  by_cases h : a.length + b.length = 0
  · rw [if_pos h]
    norm_num
  · rw [if_neg h]
    have hm := matchesTotal_le_min a b (a.length + b.length + 1) 0 a.length 0 b.length
      (Nat.zero_le _) (Nat.zero_le _)
    have h2 : 2 * matchesTotal a b (a.length + b.length + 1) 0 a.length 0 b.length
        ≤ a.length + b.length := by omega
    have hpos : (0 : ℚ) < (a.length : ℚ) + (b.length : ℚ) := by
      have hp : 0 < a.length + b.length := Nat.pos_of_ne_zero h
      exact_mod_cast hp
    constructor
    · positivity
    · rw [div_le_one hpos]
      exact_mod_cast h2

theorem tokenOverlap_bounds (q p : List Char) :
    0 ≤ tokenOverlap q p ∧ tokenOverlap q p ≤ 1 := by
  simp only [tokenOverlap]
  by_cases h : (wordTokens q.length q).dedup = []
  · rw [if_pos h]
    norm_num
  · rw [if_neg h]
    have hle : ((wordTokens q.length q).dedup.filter
        (fun t => ((wordTokens p.length p).dedup).contains t)).length
        ≤ (wordTokens q.length q).dedup.length := List.length_filter_le _ _
    have hpos : (0 : ℚ) < ((wordTokens q.length q).dedup.length : ℚ) := by
      have hp : 0 < (wordTokens q.length q).dedup.length := List.length_pos.mpr h
      exact_mod_cast hp
    constructor
    · positivity
    · rw [div_le_one hpos]
      exact_mod_cast hle

theorem scoreOf_bounds (q p : String) :
    0 ≤ scoreOf q p ∧ scoreOf q p ≤ 1 := by
  simp only [scoreOf]
  obtain ⟨r0, r1⟩ := seqMatcherSimilarity_bounds (q.data.map Char.toLower)
    (p.data.map Char.toLower)
  obtain ⟨o0, o1⟩ := tokenOverlap_bounds (q.data.map Char.toLower)
    (p.data.map Char.toLower)
  constructor
  · have ha := mul_nonneg (show (0:ℚ) ≤ 0.6 by norm_num) r0
    have hb := mul_nonneg (show (0:ℚ) ≤ 0.4 by norm_num) o0
    linarith
  · have ha := mul_le_mul_of_nonneg_left r1 (show (0:ℚ) ≤ 0.6 by norm_num)
    have hb := mul_le_mul_of_nonneg_left o1 (show (0:ℚ) ≤ 0.4 by norm_num)
    norm_num at ha hb
    linarith

/-! ### Properties of the stable descending sort -/

theorem insertStableDesc_perm (x : ℚ × String × String)
    (l : List (ℚ × String × String)) :
    (insertStableDesc x l).Perm (x :: l) := by
  induction l with
  | nil => exact List.Perm.refl _
  | cons y ys ih =>
      by_cases h : x.1 < y.1
      · rw [insertStableDesc, if_pos h]
        exact (ih.cons y).trans (List.Perm.swap x y ys)
      · rw [insertStableDesc, if_neg h]

theorem pySortDesc_perm (l : List (ℚ × String × String)) :
    (pySortDesc l).Perm l := by
  induction l with
  | nil => exact List.Perm.refl _
  | cons x xs ih =>
      exact (insertStableDesc_perm x (pySortDesc xs)).trans (ih.cons x)

theorem insertStableDesc_pairwise (x : ℚ × String × String)
    (l : List (ℚ × String × String))
    (h : l.Pairwise (fun u v => v.1 ≤ u.1)) :
    (insertStableDesc x l).Pairwise (fun u v => v.1 ≤ u.1) := by
  induction l with
  | nil => simp [insertStableDesc]
  | cons y ys ih =>
      obtain ⟨hy, hys⟩ := List.pairwise_cons.mp h
      by_cases hxy : x.1 < y.1
      · rw [insertStableDesc, if_pos hxy]
        refine List.Pairwise.cons ?_ (ih hys)
        intro z hz
        rcases List.mem_cons.mp ((insertStableDesc_perm x ys).mem_iff.mp hz)
          with hzx | hzys
        · exact hzx ▸ le_of_lt hxy
        · exact hy z hzys
      · rw [insertStableDesc, if_neg hxy]
        have hxy' : y.1 ≤ x.1 := le_of_not_lt hxy
        refine List.Pairwise.cons ?_ h
        intro z hz
        rcases List.mem_cons.mp hz with hzy | hzys
        · exact hzy ▸ hxy'
        · exact le_trans (hy z hzys) hxy'

theorem pySortDesc_pairwise (l : List (ℚ × String × String)) :
    (pySortDesc l).Pairwise (fun u v => v.1 ≤ u.1) := by
  induction l with
  | nil => simp [pySortDesc]
  | cons x xs ih => exact insertStableDesc_pairwise x (pySortDesc xs) ih

theorem insertStableDesc_filter (x : ℚ × String × String)
    (l : List (ℚ × String × String)) (s : ℚ) :
    (insertStableDesc x l).filter (fun t => decide (t.1 = s))
      = ((x :: l).filter (fun t => decide (t.1 = s))) := by
  induction l with
  | nil => rfl
  | cons y ys ih =>
      by_cases hxy : x.1 < y.1
      · rw [insertStableDesc, if_pos hxy]
        by_cases hx : x.1 = s
        · have hy : ¬(y.1 = s) := by
            intro hy
            rw [hx] at hxy
            rw [hy] at hxy
            exact lt_irrefl s hxy
          simp [List.filter_cons, hx, hy, ih]
        · by_cases hy : y.1 = s <;> simp [List.filter_cons, hx, hy, ih]
      · rw [insertStableDesc, if_neg hxy]

theorem pySortDesc_filter (l : List (ℚ × String × String)) (s : ℚ) :
    (pySortDesc l).filter (fun t => decide (t.1 = s))
      = l.filter (fun t => decide (t.1 = s)) := by
  induction l with
  | nil => rfl
  | cons x xs ih =>
      have h1 := insertStableDesc_filter x (pySortDesc xs) s
      rw [pySortDesc, h1, List.filter_cons, List.filter_cons, ih]

/-- C4: on a valid query over a non-empty index, `doc_search` succeeds; each
candidate carries the score `0.6 * sequence_similarity + 0.4 * token_overlap`
of its passage (sequence similarity the `SequenceMatcher` ratio of the
lowercased strings — doubled matched-character total over the combined
length — and token overlap the fraction of the query's word tokens present
in the passage), every score lies in `[0, 1]`; the match list is the
candidate list sorted by descending score — stably, so equal scores keep
their original index order — cut to the first `top_n`, with each reported
score rounded to 4 decimal places. -/
theorem c4_doc_search_scoring (index : List (String × String)) (q : String) (n : Nat)
    (hq : ¬(q = "" ∨ pyStrip q.data = [])) (hi : index ≠ []) :
    ∃ r, doc_search index q n = .ok r
      ∧ r.matchList = ((pySortDesc (docCandidates index q)).take n).map
          (fun t => ⟨t.2.1, t.2.2, pyRound4 t.1⟩)
      ∧ (∀ c ∈ docCandidates index q, ∃ ps ∈ index,
          c = (scoreOf q ps.1, ps.1, ps.2)
          ∧ scoreOf q ps.1
              = (0.6 : ℚ) * seqMatcherSimilarity (q.data.map Char.toLower)
                  (ps.1.data.map Char.toLower)
                + (0.4 : ℚ) * tokenOverlap (q.data.map Char.toLower)
                  (ps.1.data.map Char.toLower)
          ∧ 0 ≤ c.1 ∧ c.1 ≤ 1)
      ∧ (pySortDesc (docCandidates index q)).Pairwise (fun u v => v.1 ≤ u.1)
      ∧ (pySortDesc (docCandidates index q)).Perm (docCandidates index q)
      ∧ (∀ s : ℚ, (pySortDesc (docCandidates index q)).filter (fun t => decide (t.1 = s))
          = (docCandidates index q).filter (fun t => decide (t.1 = s)))
      ∧ r.matchList.length = min n index.length := by
  have hds : doc_search index q n = .ok ⟨q,
      ((pySortDesc (docCandidates index q)).take n).map
        (fun t => ⟨t.2.1, t.2.2, pyRound4 t.1⟩), none⟩ := by
    simp [doc_search, hq, hi]
  refine ⟨_, hds, rfl, ?_, pySortDesc_pairwise _, pySortDesc_perm _,
    fun s => pySortDesc_filter _ s, ?_⟩
  · intro c hc
    obtain ⟨ps, hps, hceq⟩ := List.mem_map.mp hc
    refine ⟨ps, hps, hceq.symm, rfl, ?_, ?_⟩
    · rw [← hceq]
      exact (scoreOf_bounds q ps.1).1
    · rw [← hceq]
      exact (scoreOf_bounds q ps.1).2
  · simp [pySortDesc_length, docCandidates]

/-- C4 witness: the scoring contract at the concrete query `"hello"` over
the two-passage index of the spec's scenario, with `top_n = 1`. -/
theorem c4_doc_search_scoring_witness :
    ∃ r, doc_search [("Hello world", "u"), ("Goodbye", "u")] "hello" 1 = .ok r
      ∧ r.matchList = ((pySortDesc (docCandidates
            [("Hello world", "u"), ("Goodbye", "u")] "hello")).take 1).map
          (fun t => ⟨t.2.1, t.2.2, pyRound4 t.1⟩)
      ∧ (∀ c ∈ docCandidates [("Hello world", "u"), ("Goodbye", "u")] "hello",
          ∃ ps ∈ [("Hello world", "u"), ("Goodbye", "u")],
          c = (scoreOf "hello" ps.1, ps.1, ps.2)
          ∧ scoreOf "hello" ps.1
              = (0.6 : ℚ) * seqMatcherSimilarity ("hello".data.map Char.toLower)
                  (ps.1.data.map Char.toLower)
                + (0.4 : ℚ) * tokenOverlap ("hello".data.map Char.toLower)
                  (ps.1.data.map Char.toLower)
          ∧ 0 ≤ c.1 ∧ c.1 ≤ 1)
      ∧ (pySortDesc (docCandidates [("Hello world", "u"), ("Goodbye", "u")]
          "hello")).Pairwise (fun u v => v.1 ≤ u.1)
      ∧ (pySortDesc (docCandidates [("Hello world", "u"), ("Goodbye", "u")]
          "hello")).Perm (docCandidates [("Hello world", "u"), ("Goodbye", "u")] "hello")
      ∧ (∀ s : ℚ, (pySortDesc (docCandidates [("Hello world", "u"), ("Goodbye", "u")]
            "hello")).filter (fun t => decide (t.1 = s))
          = (docCandidates [("Hello world", "u"), ("Goodbye", "u")] "hello").filter
              (fun t => decide (t.1 = s)))
      ∧ r.matchList.length
          = min 1 [(("Hello world" : String), ("u" : String)), ("Goodbye", "u")].length :=
  c4_doc_search_scoring [("Hello world", "u"), ("Goodbye", "u")] "hello" 1
    (by decide) (by decide)
